import Mathlib

/-!
Verification of the immutable column-definition builder and predicate
composition core (kysely slice).

`ColumnDefinitionBuilder` and its methods are translated from
`src/schema/column-definition-builder.ts`.  The node helpers it calls
(`ColumnDefinitionNode.cloneWith`, `ReferencesNode.create` /
`cloneWithOnDelete` / `cloneWithOnUpdate`, `GeneratedNode.create` /
`createWithExpression` / `cloneWith`, `CheckConstraintNode.create`,
`DefaultValueNode.create`, `parseStringReference`,
`parseDefaultValueExpression`) live outside the provided sources and are
modelled from the specification, as is the `orHaving` accumulation of
`src/query-builder/having-interface.ts` (the interface file declares the
methods without an implementation).

TypeScript optional fields become `Option`; a thrown `Error` becomes
`Except.error` carrying the message string.
-/

namespace Kysely

/-- Equality of `Except` values is decidable when it is on both sides. -/
instance {ε α : Type} [DecidableEq ε] [DecidableEq α] :
    DecidableEq (Except ε α) := fun x y =>
  match x, y with
  | Except.error e, Except.error f =>
    if h : e = f then isTrue (by rw [h])
    else isFalse (by intro hc; injection hc; contradiction)
  | Except.error _, Except.ok _ => isFalse (by intro hc; exact Except.noConfusion hc)
  | Except.ok _, Except.error _ => isFalse (by intro hc; exact Except.noConfusion hc)
  | Except.ok a, Except.ok b =>
    if h : a = b then isTrue (by rw [h])
    else isFalse (by intro hc; injection hc; contradiction)

/-- Whether a call completed without throwing. -/
def callOk {ε α : Type} : Except ε α → Bool
| Except.ok _ => true
| Except.error _ => false

/-- The fixed enumerated set of foreign-key modify actions
(`OnModifyForeignAction` in `references-node.ts`): `no action`, `restrict`,
`cascade`, `set null`, `set default`. -/
inductive OnModifyForeignAction where
| noAction
| restrict
| cascade
| setNull
| setDefault
deriving DecidableEq, Repr

/-- Opaque operation node produced by a raw expression.  The core never
inspects it; it only wraps and stores it. -/
structure RawNode where
  sql : String
deriving DecidableEq, Repr

/-- Modelled from the spec: §6 — a raw-expression value (`AnyRawBuilder`)
exposes only the capability to convert itself into an operation node. -/
structure RawBuilder where
  node : RawNode
deriving DecidableEq, Repr

def RawBuilder.toOperationNode (b : RawBuilder) : RawNode :=
  b.node

/-- A parsed column segment of a dotted reference: a named column or the
"all columns" (`*`) marker variant (spec §3, `ReferenceNode`).  The marker
variant is invalid inside a references context and is rejected by
`ColumnDefinitionBuilder.references`. -/
inductive SimpleColumn where
| column (name : String)
| selectAll
deriving DecidableEq, Repr

/-- Target table of a reference: optional schema plus table identifier,
both kept as opaque identifier strings (spec §4.3: no normalization). -/
structure TableNode where
  schema : Option String
  table : String
deriving DecidableEq, Repr

/-- Modelled from the spec: §3 — generic column reference: table/schema
path plus column. -/
structure ReferenceNode where
  table : TableNode
  column : SimpleColumn
deriving DecidableEq, Repr

def parseColumnSegment (s : String) : SimpleColumn :=
  if s = "*" then SimpleColumn.selectAll else SimpleColumn.column s

/-- Splits a character list at every occurrence of `sep`; splitting the
empty list yields one empty segment, as `"".split('.')` yields `[""]`. -/
def splitOnChar (sep : Char) : List Char → List (List Char)
| [] => [[]]
| c :: cs =>
  match splitOnChar sep cs, decide (c = sep) with
  | rest, true => [] :: rest
  | [], false => [[c]]
  | r :: rs, false => (c :: r) :: rs

/-- Splits a string on the separator character `.`. -/
def splitOnDot (s : String) : List String :=
  (splitOnChar '.' s.data).map fun l => ⟨l⟩

/-- Modelled from the spec: §4.3 reference parsing
(`parseStringReference` of `parser/reference-parser.ts` is not under the
provided sources).  Split on `.`; exactly 2 segments yield `table.column`,
exactly 3 yield `schema.table.column`, any other count fails with a
descriptive error.  A `*` column segment parses to the all-columns marker
variant, which the caller (`references`) rejects. -/
def parseStringReference (ref : String) : Except String ReferenceNode :=
  match splitOnDot ref with
  | [t, c] => Except.ok ⟨⟨none, t⟩, parseColumnSegment c⟩
  | [s, t, c] => Except.ok ⟨⟨some s, t⟩, parseColumnSegment c⟩
  | _ => Except.error ("invalid column reference " ++ ref)

/-- Modelled from the spec: §3 — `ReferencesNode`: target table, ordered
column references, optional `onDelete`/`onUpdate` actions
(`references-node.ts` is not under the provided sources). -/
structure ReferencesNode where
  table : TableNode
  columns : List SimpleColumn
  onDelete : Option OnModifyForeignAction
  onUpdate : Option OnModifyForeignAction
deriving DecidableEq, Repr

/-- Modelled from the spec: §3 — `ReferencesNode.create` installs the
table and columns with no action set. -/
def ReferencesNode.create (table : TableNode) (columns : List SimpleColumn) :
    ReferencesNode :=
  ⟨table, columns, none, none⟩

/-- Modelled from the spec: §4.2 — clones the node with `onDelete` set,
preserving every other field. -/
def ReferencesNode.cloneWithOnDelete (r : ReferencesNode)
    (a : OnModifyForeignAction) : ReferencesNode :=
  ⟨r.table, r.columns, some a, r.onUpdate⟩

/-- Modelled from the spec: §4.2 — clones the node with `onUpdate` set,
preserving every other field. -/
def ReferencesNode.cloneWithOnUpdate (r : ReferencesNode)
    (a : OnModifyForeignAction) : ReferencesNode :=
  ⟨r.table, r.columns, r.onDelete, some a⟩

/-- Modelled from the spec: §3 — `GeneratedNode`: expression-based
generated column or identity specifier with `always`/`byDefault` mode,
optional `stored` flag (`generated-node.ts` is not under the provided
sources).  Absent TypeScript fields are `none`. -/
structure GeneratedNode where
  always : Option Bool
  byDefault : Option Bool
  identity : Option Bool
  stored : Option Bool
  expression : Option RawNode
deriving DecidableEq, Repr

/-- Partial field overrides for `GeneratedNode` (spec §4.1 clone-with
protocol): `none` means the field is not overridden. -/
structure GeneratedNodeProps where
  always : Option Bool
  byDefault : Option Bool
  identity : Option Bool
  stored : Option Bool
deriving DecidableEq, Repr

/-- Override semantics of a partial-props field: a provided value wins,
an absent one keeps the old field (TypeScript object spread). -/
def propOr {α : Type} (p : Option α) (old : Option α) : Option α :=
  match p with
  | some v => some v
  | none => old

/-- Modelled from the spec: §3 — `GeneratedNode.create(params)` builds an
identity-form node from the provided flags; no expression is set. -/
def GeneratedNode.create (p : GeneratedNodeProps) : GeneratedNode :=
  ⟨p.always, p.byDefault, p.identity, p.stored, none⟩

/-- Modelled from the spec: §3 — `GeneratedNode.createWithExpression`
builds an expression-based generated node. -/
def GeneratedNode.createWithExpression (e : RawNode) : GeneratedNode :=
  ⟨none, none, none, none, some e⟩

/-- Modelled from the spec: §4.1 — structural copy with a partial set of
field overrides; all other fields preserved. -/
def GeneratedNode.cloneWith (n : GeneratedNode) (p : GeneratedNodeProps) :
    GeneratedNode :=
  ⟨propOr p.always n.always, propOr p.byDefault n.byDefault,
    propOr p.identity n.identity, propOr p.stored n.stored, n.expression⟩

/-- Modelled from the spec: §3 — `CheckConstraintNode` wraps a parsed raw
expression (`check-constraint-node.ts` is not under the provided
sources). -/
structure CheckConstraintNode where
  expression : RawNode
deriving DecidableEq, Repr

def CheckConstraintNode.create (e : RawNode) : CheckConstraintNode :=
  ⟨e⟩

/-- Modelled from the spec: §4.2 — a default-value expression is a value
literal or a raw expression (`DefaultValueExpression` of
`default-value-parser.ts` is not under the provided sources). -/
inductive DefaultValueExpression where
| lit (value : String)
| raw (b : RawBuilder)
deriving DecidableEq, Repr

/-- A parsed default value: an immediate value literal or the node of a
raw expression. -/
inductive DefaultValueContent where
| value (v : String)
| raw (n : RawNode)
deriving DecidableEq, Repr

/-- Modelled from the spec: §4.2 — `parseDefaultValueExpression`
interprets a literal as an immediate value and extracts the node of a raw
expression. -/
def parseDefaultValueExpression : DefaultValueExpression → DefaultValueContent
| DefaultValueExpression.lit v => DefaultValueContent.value v
| DefaultValueExpression.raw b => DefaultValueContent.raw b.toOperationNode

/-- Modelled from the spec: §3 — `DefaultValueNode` wraps a parsed
default value. -/
structure DefaultValueNode where
  defaultValue : DefaultValueContent
deriving DecidableEq, Repr

def DefaultValueNode.create (c : DefaultValueContent) : DefaultValueNode :=
  ⟨c⟩

/-- Modelled from the spec: §3 — `ColumnDefinition`: name, base type and
the optional flags/sub-nodes (`column-definition-node.ts` is not under
the provided sources).  Absent TypeScript fields are `none`. -/
structure ColumnDefinitionNode where
  column : String
  dataType : String
  references : Option ReferencesNode
  primaryKey : Option Bool
  autoIncrement : Option Bool
  unique : Option Bool
  notNull : Option Bool
  unsigned : Option Bool
  defaultTo : Option DefaultValueNode
  check : Option CheckConstraintNode
  generated : Option GeneratedNode
deriving DecidableEq, Repr

/-- Partial field overrides for `ColumnDefinitionNode` (spec §4.1):
`none` means the field is not overridden. -/
structure ColumnDefinitionNodeProps where
  references : Option ReferencesNode
  primaryKey : Option Bool
  autoIncrement : Option Bool
  unique : Option Bool
  notNull : Option Bool
  unsigned : Option Bool
  defaultTo : Option DefaultValueNode
  check : Option CheckConstraintNode
  generated : Option GeneratedNode
deriving DecidableEq, Repr

/-- The empty override record: no field overridden. -/
def noProps : ColumnDefinitionNodeProps :=
  ⟨none, none, none, none, none, none, none, none, none⟩

/-- Modelled from the spec: §4.1 — structural copy of a
`ColumnDefinitionNode` with a partial set of field overrides; all other
fields preserved. -/
def ColumnDefinitionNode.cloneWith (n : ColumnDefinitionNode)
    (p : ColumnDefinitionNodeProps) : ColumnDefinitionNode :=
  ⟨n.column, n.dataType,
    propOr p.references n.references,
    propOr p.primaryKey n.primaryKey,
    propOr p.autoIncrement n.autoIncrement,
    propOr p.unique n.unique,
    propOr p.notNull n.notNull,
    propOr p.unsigned n.unsigned,
    propOr p.defaultTo n.defaultTo,
    propOr p.check n.check,
    propOr p.generated n.generated⟩

/-- `ColumnDefinitionBuilder` of
`src/schema/column-definition-builder.ts`: wraps exactly one owned
`ColumnDefinitionNode` (the private `#node`). -/
structure ColumnDefinitionBuilder where
  node : ColumnDefinitionNode
deriving DecidableEq, Repr

namespace ColumnDefinitionBuilder

/-- `toOperationNode()`: returns the wrapped node without copying. -/
def toOperationNode (b : ColumnDefinitionBuilder) : ColumnDefinitionNode :=
  b.node

/-- `autoIncrement()` from the source: clone with `autoIncrement: true`. -/
def autoIncrement (b : ColumnDefinitionBuilder) : ColumnDefinitionBuilder :=
  ⟨b.node.cloneWith { noProps with autoIncrement := some true }⟩

/-- `primaryKey()` from the source: clone with `primaryKey: true`. -/
def primaryKey (b : ColumnDefinitionBuilder) : ColumnDefinitionBuilder :=
  ⟨b.node.cloneWith { noProps with primaryKey := some true }⟩

/-- `references(ref)` from the source: parse the string, reject a result
that is not a reference or whose column is the all-columns marker, and
install a fresh `ReferencesNode` wrapping the single parsed column. -/
def references (b : ColumnDefinitionBuilder) (ref : String) :
    Except String ColumnDefinitionBuilder :=
  match parseStringReference ref with
  | Except.error e => Except.error e
  | Except.ok r =>
    match r.column with
    | SimpleColumn.selectAll =>
      Except.error ("invalid call references('" ++ ref ++
        "'). The reference must have format table.column or schema.table.column")
    | SimpleColumn.column c =>
      Except.ok ⟨b.node.cloneWith { noProps with
        references := some (ReferencesNode.create r.table
          [SimpleColumn.column c]) }⟩

/-- `onDelete(onDelete)` from the source: fails when the node has no
references sub-node, otherwise clones the references node with the
action set. -/
def onDelete (b : ColumnDefinitionBuilder) (a : OnModifyForeignAction) :
    Except String ColumnDefinitionBuilder :=
  match b.node.references with
  | none => Except.error "on delete constraint can only be added for foreign keys"
  | some r =>
    Except.ok ⟨b.node.cloneWith { noProps with
      references := some (r.cloneWithOnDelete a) }⟩

/-- `onUpdate(onUpdate)` from the source. -/
def onUpdate (b : ColumnDefinitionBuilder) (a : OnModifyForeignAction) :
    Except String ColumnDefinitionBuilder :=
  match b.node.references with
  | none => Except.error "on update constraint can only be added for foreign keys"
  | some r =>
    Except.ok ⟨b.node.cloneWith { noProps with
      references := some (r.cloneWithOnUpdate a) }⟩

/-- `unique()` from the source. -/
def unique (b : ColumnDefinitionBuilder) : ColumnDefinitionBuilder :=
  ⟨b.node.cloneWith { noProps with unique := some true }⟩

/-- `notNull()` from the source. -/
def notNull (b : ColumnDefinitionBuilder) : ColumnDefinitionBuilder :=
  ⟨b.node.cloneWith { noProps with notNull := some true }⟩

/-- `unsigned()` from the source. -/
def unsigned (b : ColumnDefinitionBuilder) : ColumnDefinitionBuilder :=
  ⟨b.node.cloneWith { noProps with unsigned := some true }⟩

/-- `defaultTo(value)` from the source. -/
def defaultTo (b : ColumnDefinitionBuilder) (v : DefaultValueExpression) :
    ColumnDefinitionBuilder :=
  ⟨b.node.cloneWith { noProps with
    defaultTo := some (DefaultValueNode.create (parseDefaultValueExpression v)) }⟩

/-- `check(expression)` from the source. -/
def check (b : ColumnDefinitionBuilder) (e : RawBuilder) :
    ColumnDefinitionBuilder :=
  ⟨b.node.cloneWith { noProps with
    check := some (CheckConstraintNode.create e.toOperationNode) }⟩

/-- `generatedAlwaysAs(expression)` from the source: installs an
expression-form generated node. -/
def generatedAlwaysAs (b : ColumnDefinitionBuilder) (e : RawBuilder) :
    ColumnDefinitionBuilder :=
  ⟨b.node.cloneWith { noProps with
    generated := some (GeneratedNode.createWithExpression e.toOperationNode) }⟩

/-- `generatedAlwaysAsIdentity()` from the source. -/
def generatedAlwaysAsIdentity (b : ColumnDefinitionBuilder) :
    ColumnDefinitionBuilder :=
  ⟨b.node.cloneWith { noProps with
    generated := some (GeneratedNode.create
      ⟨some true, none, some true, none⟩) }⟩

/-- `generatedByDefaultAsIdentity()` from the source. -/
def generatedByDefaultAsIdentity (b : ColumnDefinitionBuilder) :
    ColumnDefinitionBuilder :=
  ⟨b.node.cloneWith { noProps with
    generated := some (GeneratedNode.create
      ⟨none, some true, some true, none⟩) }⟩

/-- `stored()` from the source: fails when the node has no generated
sub-node (a presence-only check), otherwise clones the generated node
with `stored: true`. -/
def stored (b : ColumnDefinitionBuilder) :
    Except String ColumnDefinitionBuilder :=
  match b.node.generated with
  | none => Except.error "stored() can only be called after generatedAlwaysAs"
  | some g =>
    Except.ok ⟨b.node.cloneWith { noProps with
      generated := some (g.cloneWith ⟨none, none, none, some true⟩) }⟩

end ColumnDefinitionBuilder

/-- One public method call of `ColumnDefinitionBuilder`, with its
argument. -/
inductive CdbMethod where
| autoIncrement
| primaryKey
| references (ref : String)
| onDelete (a : OnModifyForeignAction)
| onUpdate (a : OnModifyForeignAction)
| unique
| notNull
| unsigned
| defaultTo (v : DefaultValueExpression)
| check (e : RawBuilder)
| generatedAlwaysAs (e : RawBuilder)
| generatedAlwaysAsIdentity
| generatedByDefaultAsIdentity
| stored
deriving DecidableEq, Repr

/-- Applies one public method to a builder, returning both the call's
outcome (the new builder, or the thrown error) and the receiver as
observable after the call.  The source's methods read `this.#node` and
never assign it — the receiver component of every branch, throwing
branches included, is the untouched receiver. -/
def applyMethodState (m : CdbMethod) (b : ColumnDefinitionBuilder) :
    Except String ColumnDefinitionBuilder × ColumnDefinitionBuilder :=
  match m with
  | CdbMethod.autoIncrement => (Except.ok b.autoIncrement, b)
  | CdbMethod.primaryKey => (Except.ok b.primaryKey, b)
  | CdbMethod.references ref => (b.references ref, b)
  | CdbMethod.onDelete a => (b.onDelete a, b)
  | CdbMethod.onUpdate a => (b.onUpdate a, b)
  | CdbMethod.unique => (Except.ok b.unique, b)
  | CdbMethod.notNull => (Except.ok b.notNull, b)
  | CdbMethod.unsigned => (Except.ok b.unsigned, b)
  | CdbMethod.defaultTo v => (Except.ok (b.defaultTo v), b)
  | CdbMethod.check e => (Except.ok (b.check e), b)
  | CdbMethod.generatedAlwaysAs e => (Except.ok (b.generatedAlwaysAs e), b)
  | CdbMethod.generatedAlwaysAsIdentity => (Except.ok b.generatedAlwaysAsIdentity, b)
  | CdbMethod.generatedByDefaultAsIdentity => (Except.ok b.generatedByDefaultAsIdentity, b)
  | CdbMethod.stored => (b.stored, b)

/-- A plain column definition node with no optional field set, as built
by `createTable(...).addColumn('col', 'integer', ...)`. -/
def sampleNode : ColumnDefinitionNode :=
  ⟨"col", "integer", none, none, none, none, none, none, none, none, none⟩

/-- A builder wrapping `sampleNode`. -/
def sampleBuilder : ColumnDefinitionBuilder :=
  ⟨sampleNode⟩

/-- A references sub-node that already carries both modify actions. -/
def refsWithActions : ReferencesNode :=
  ⟨⟨none, "person"⟩, [SimpleColumn.column "id"],
    some OnModifyForeignAction.cascade, some OnModifyForeignAction.restrict⟩

/-- A column definition node whose references sub-node carries both
modify actions. -/
def nodeWithRefActions : ColumnDefinitionNode :=
  { sampleNode with references := some refsWithActions }

/-- A references sub-node with no action set. -/
def refsPlain : ReferencesNode :=
  ReferencesNode.create ⟨none, "person"⟩ [SimpleColumn.column "id"]

/-- A column definition node with a plain references sub-node. -/
def nodeWithRefs : ColumnDefinitionNode :=
  { sampleNode with references := some refsPlain }

/-- An identity-form generated sub-node (`generated always as identity`). -/
def genIdentity : GeneratedNode :=
  GeneratedNode.create ⟨some true, none, some true, none⟩

/-- A column definition node with an identity-form generated sub-node. -/
def nodeWithGenerated : ColumnDefinitionNode :=
  { sampleNode with generated := some genIdentity }

/-- Claim C2: for every builder, `references "a.b"` succeeds and installs
a ReferencesNode with table identifier `a` and column list exactly `[b]`;
`references "a.b.c"` succeeds with schema `a`, table `b`, column `c`;
and `references "a"`, `references ""` and `references "a.*"` each throw a
malformed-reference error. -/
theorem references_parses_dotted_strings (B : ColumnDefinitionBuilder) :
    Except.map (fun b => b.toOperationNode.references) (B.references "a.b") =
      Except.ok (some ⟨⟨none, "a"⟩, [SimpleColumn.column "b"], none, none⟩) ∧
    Except.map (fun b => b.toOperationNode.references) (B.references "a.b.c") =
      Except.ok (some ⟨⟨some "a", "b"⟩, [SimpleColumn.column "c"], none, none⟩) ∧
    callOk (B.references "a") = false ∧
    callOk (B.references "") = false ∧
    callOk (B.references "a.*") = false :=
  ⟨rfl, rfl, rfl, rfl, rfl⟩

/-- Claim C5: a successful `references` call installs a full replacement:
the new references sub-node carries no `onDelete` and no `onUpdate`
action, whatever actions the builder's previous references sub-node
carried. -/
theorem references_installs_fresh_refs (B : ColumnDefinitionBuilder)
    (ref : String) (B' : ColumnDefinitionBuilder)
    (h : B.references ref = Except.ok B') :
    ∃ tbl cols, B'.toOperationNode.references = some ⟨tbl, cols, none, none⟩ := by
  unfold ColumnDefinitionBuilder.references at h
  split at h
  · exact Except.noConfusion h
  · split at h
    · exact Except.noConfusion h
    · injection h with h
      subst h
      exact ⟨_, _, rfl⟩

/-- The fresh references sub-node installed by `references "x.y"`. -/
def freshXYRefs : ReferencesNode :=
  ReferencesNode.create ⟨none, "x"⟩ [SimpleColumn.column "y"]

/-- The node of `nodeWithRefActions` after `references "x.y"` replaced
its references sub-node. -/
def nodeRefsReplaced : ColumnDefinitionNode :=
  { nodeWithRefActions with references := some freshXYRefs }

/-- Claim C5 witness: the theorem applied to a builder whose previous
references sub-node carried both an `onDelete` and an `onUpdate`
action. -/
theorem references_installs_fresh_refs_witness :
    ∃ tbl cols,
      (ColumnDefinitionBuilder.mk nodeRefsReplaced).toOperationNode.references =
        some ⟨tbl, cols, none, none⟩ :=
  references_installs_fresh_refs ⟨nodeWithRefActions⟩ "x.y"
    ⟨nodeRefsReplaced⟩ (by decide)

/-- Claim C6: installing an identity-form generated node after an
expression-form one replaces the sub-node entirely (the expression is
discarded), and installing an expression-form node after an identity-form
one likewise fully replaces it. -/
theorem generated_forms_replace_each_other (B : ColumnDefinitionBuilder)
    (e : RawBuilder) :
    ((B.generatedAlwaysAs e).generatedAlwaysAsIdentity).toOperationNode.generated =
      some ⟨some true, none, some true, none, none⟩ ∧
    ((B.generatedAlwaysAs e).generatedByDefaultAsIdentity).toOperationNode.generated =
      some ⟨none, some true, some true, none, none⟩ ∧
    ((B.generatedAlwaysAsIdentity).generatedAlwaysAs e).toOperationNode.generated =
      some ⟨none, none, none, none, some e.toOperationNode⟩ ∧
    ((B.generatedByDefaultAsIdentity).generatedAlwaysAs e).toOperationNode.generated =
      some ⟨none, none, none, none, some e.toOperationNode⟩ :=
  ⟨rfl, rfl, rfl, rfl⟩

/-- Claim C7: `autoIncrement`, `primaryKey`, `unique`, `notNull` and
`unsigned` never throw, set the corresponding boolean flag to true, and
are idempotent: applying a method twice wraps a node structurally equal
to applying it once. -/
theorem flag_methods_idempotent (B : ColumnDefinitionBuilder) :
    ((applyMethodState CdbMethod.autoIncrement B).1 = Except.ok B.autoIncrement ∧
      B.autoIncrement.toOperationNode.autoIncrement = some true ∧
      B.autoIncrement.autoIncrement = B.autoIncrement) ∧
    ((applyMethodState CdbMethod.primaryKey B).1 = Except.ok B.primaryKey ∧
      B.primaryKey.toOperationNode.primaryKey = some true ∧
      B.primaryKey.primaryKey = B.primaryKey) ∧
    ((applyMethodState CdbMethod.unique B).1 = Except.ok B.unique ∧
      B.unique.toOperationNode.unique = some true ∧
      B.unique.unique = B.unique) ∧
    ((applyMethodState CdbMethod.notNull B).1 = Except.ok B.notNull ∧
      B.notNull.toOperationNode.notNull = some true ∧
      B.notNull.notNull = B.notNull) ∧
    ((applyMethodState CdbMethod.unsigned B).1 = Except.ok B.unsigned ∧
      B.unsigned.toOperationNode.unsigned = some true ∧
      B.unsigned.unsigned = B.unsigned) :=
  ⟨⟨rfl, rfl, rfl⟩, ⟨rfl, rfl, rfl⟩, ⟨rfl, rfl, rfl⟩, ⟨rfl, rfl, rfl⟩,
    ⟨rfl, rfl, rfl⟩⟩

/-- Claim C8: `check(expr)`, `unique()` and `notNull()` together yield a
node with the check constraint and both flags set, and the three calls
commute: every permutation produces a structurally equal builder. -/
theorem check_unique_notNull_commute (B : ColumnDefinitionBuilder)
    (e : RawBuilder) :
    (((B.check e).unique).notNull).toOperationNode.check =
      some (CheckConstraintNode.create e.toOperationNode) ∧
    (((B.check e).unique).notNull).toOperationNode.unique = some true ∧
    (((B.check e).unique).notNull).toOperationNode.notNull = some true ∧
    ((B.check e).unique).notNull = ((B.check e).notNull).unique ∧
    ((B.check e).unique).notNull = ((B.unique).check e).notNull ∧
    ((B.check e).unique).notNull = ((B.unique).notNull).check e ∧
    ((B.check e).unique).notNull = ((B.notNull).check e).unique ∧
    ((B.check e).unique).notNull = ((B.notNull).unique).check e :=
  ⟨rfl, rfl, rfl, rfl, rfl, rfl, rfl, rfl⟩

/-- Claim C3: `onDelete` and `onUpdate` throw exactly when the node has
no references sub-node; with one present they succeed and the resulting
node carries the original reference with the given action set, the other
action preserved. -/
theorem onDelete_onUpdate_require_references (B : ColumnDefinitionBuilder)
    (a b : OnModifyForeignAction) :
    (B.toOperationNode.references = none →
      B.onDelete a =
        Except.error "on delete constraint can only be added for foreign keys" ∧
      B.onUpdate b =
        Except.error "on update constraint can only be added for foreign keys") ∧
    (∀ r, B.toOperationNode.references = some r →
      Except.map (fun x => x.toOperationNode.references) (B.onDelete a) =
        Except.ok (some ⟨r.table, r.columns, some a, r.onUpdate⟩) ∧
      Except.map (fun x => x.toOperationNode.references) (B.onUpdate b) =
        Except.ok (some ⟨r.table, r.columns, r.onDelete, some b⟩)) := by
  refine ⟨?_, ?_⟩
  · intro h
    have h' : B.node.references = none := h
    refine ⟨?_, ?_⟩
    · unfold ColumnDefinitionBuilder.onDelete
      rw [h']
    · unfold ColumnDefinitionBuilder.onUpdate
      rw [h']
  · intro r h
    have h' : B.node.references = some r := h
    refine ⟨?_, ?_⟩
    · unfold ColumnDefinitionBuilder.onDelete
      rw [h']
      rfl
    · unfold ColumnDefinitionBuilder.onUpdate
      rw [h']
      rfl

/-- Claim C3 witness: the theorem applied to a builder without a
references sub-node and to one with a plain references sub-node. -/
theorem onDelete_onUpdate_require_references_witness :
    (ColumnDefinitionBuilder.onDelete sampleBuilder OnModifyForeignAction.cascade =
      Except.error "on delete constraint can only be added for foreign keys" ∧
     ColumnDefinitionBuilder.onUpdate sampleBuilder OnModifyForeignAction.setNull =
      Except.error "on update constraint can only be added for foreign keys") ∧
    (Except.map (fun x => x.toOperationNode.references)
        (ColumnDefinitionBuilder.onDelete ⟨nodeWithRefs⟩ OnModifyForeignAction.cascade) =
      Except.ok (some ⟨refsPlain.table, refsPlain.columns,
        some OnModifyForeignAction.cascade, refsPlain.onUpdate⟩) ∧
     Except.map (fun x => x.toOperationNode.references)
        (ColumnDefinitionBuilder.onUpdate ⟨nodeWithRefs⟩ OnModifyForeignAction.setNull) =
      Except.ok (some ⟨refsPlain.table, refsPlain.columns,
        refsPlain.onDelete, some OnModifyForeignAction.setNull⟩)) :=
  ⟨(onDelete_onUpdate_require_references sampleBuilder
      OnModifyForeignAction.cascade OnModifyForeignAction.setNull).1 rfl,
   (onDelete_onUpdate_require_references ⟨nodeWithRefs⟩
      OnModifyForeignAction.cascade OnModifyForeignAction.setNull).2 refsPlain rfl⟩

/-- Claim C4: `stored` throws exactly when the node has no generated
sub-node — a presence-only check, satisfied by the expression form and
both identity forms alike; on success the generated sub-node gets
`stored = true` with every other field left unaltered. -/
theorem stored_requires_generated (B : ColumnDefinitionBuilder) :
    (B.toOperationNode.generated = none →
      B.stored = Except.error "stored() can only be called after generatedAlwaysAs") ∧
    (∀ g, B.toOperationNode.generated = some g →
      Except.map (fun x => x.toOperationNode.generated) B.stored =
        Except.ok (some ⟨g.always, g.byDefault, g.identity, some true,
          g.expression⟩)) := by
  refine ⟨?_, ?_⟩
  · intro h
    have h' : B.node.generated = none := h
    unfold ColumnDefinitionBuilder.stored
    rw [h']
  · intro g h
    have h' : B.node.generated = some g := h
    unfold ColumnDefinitionBuilder.stored
    rw [h']
    rfl

/-- Claim C4 witness: the theorem applied to a builder without a
generated sub-node and to one built by `generatedAlwaysAsIdentity`. -/
theorem stored_requires_generated_witness :
    (ColumnDefinitionBuilder.stored sampleBuilder =
      Except.error "stored() can only be called after generatedAlwaysAs") ∧
    Except.map (fun x => x.toOperationNode.generated)
        (ColumnDefinitionBuilder.stored ⟨nodeWithGenerated⟩) =
      Except.ok (some ⟨genIdentity.always, genIdentity.byDefault,
        genIdentity.identity, some true, genIdentity.expression⟩) :=
  ⟨(stored_requires_generated sampleBuilder).1 rfl,
   (stored_requires_generated ⟨nodeWithGenerated⟩).2 genIdentity rfl⟩

/-- Claim C1: every public method applied to a builder leaves the
receiver's own wrapped node unchanged — also when the call throws — and
a successful call returns a new builder wrapping a clone-with copy of
the receiver's node. -/
theorem builder_methods_never_mutate (m : CdbMethod)
    (B : ColumnDefinitionBuilder) :
    (applyMethodState m B).2 = B ∧
    ∀ B', (applyMethodState m B).1 = Except.ok B' →
      ∃ p, B'.toOperationNode = B.toOperationNode.cloneWith p := by
  refine ⟨by cases m <;> rfl, ?_⟩
  intro B' h
  cases m with
  | references ref =>
    simp only [applyMethodState] at h
    unfold ColumnDefinitionBuilder.references at h
    split at h
    · exact Except.noConfusion h
    · split at h
      · exact Except.noConfusion h
      · injection h with h
        subst h
        exact ⟨_, rfl⟩
  | onDelete a =>
    simp only [applyMethodState] at h
    unfold ColumnDefinitionBuilder.onDelete at h
    split at h
    · exact Except.noConfusion h
    · injection h with h
      subst h
      exact ⟨_, rfl⟩
  | onUpdate a =>
    simp only [applyMethodState] at h
    unfold ColumnDefinitionBuilder.onUpdate at h
    split at h
    · exact Except.noConfusion h
    · injection h with h
      subst h
      exact ⟨_, rfl⟩
  | stored =>
    simp only [applyMethodState] at h
    unfold ColumnDefinitionBuilder.stored at h
    split at h
    · exact Except.noConfusion h
    · injection h with h
      subst h
      exact ⟨_, rfl⟩
  | autoIncrement => injection h with h; subst h; exact ⟨_, rfl⟩
  | primaryKey => injection h with h; subst h; exact ⟨_, rfl⟩
  | unique => injection h with h; subst h; exact ⟨_, rfl⟩
  | notNull => injection h with h; subst h; exact ⟨_, rfl⟩
  | unsigned => injection h with h; subst h; exact ⟨_, rfl⟩
  | defaultTo v => injection h with h; subst h; exact ⟨_, rfl⟩
  | check e => injection h with h; subst h; exact ⟨_, rfl⟩
  | generatedAlwaysAs e => injection h with h; subst h; exact ⟨_, rfl⟩
  | generatedAlwaysAsIdentity => injection h with h; subst h; exact ⟨_, rfl⟩
  | generatedByDefaultAsIdentity => injection h with h; subst h; exact ⟨_, rfl⟩

/-- Claim C1 witness: the theorem applied to the `unique` method on a
concrete builder. -/
theorem builder_methods_never_mutate_witness :
    (applyMethodState CdbMethod.unique sampleBuilder).2 = sampleBuilder ∧
    ∃ p, (ColumnDefinitionBuilder.unique sampleBuilder).toOperationNode =
      sampleBuilder.toOperationNode.cloneWith p :=
  ⟨(builder_methods_never_mutate CdbMethod.unique sampleBuilder).1,
   (builder_methods_never_mutate CdbMethod.unique sampleBuilder).2
     (ColumnDefinitionBuilder.unique sampleBuilder) rfl⟩

/-- Whether the references sub-node of a node, when present, targets
exactly one column. -/
def singletonRefs (n : ColumnDefinitionNode) : Bool :=
  match n.references with
  | none => true
  | some r => r.columns.length == 1

/-- Claim C10: `references` always installs a singleton column list,
`onDelete`/`onUpdate` preserve the table and column list of the
references sub-node, and the singleton-column property is preserved by
every public method. -/
theorem references_always_single_column :
    (∀ (B : ColumnDefinitionBuilder) ref B', B.references ref = Except.ok B' →
      ∃ c, Option.map ReferencesNode.columns B'.toOperationNode.references =
        some [c]) ∧
    (∀ (B : ColumnDefinitionBuilder) a B', B.onDelete a = Except.ok B' →
      Option.map (fun r => (r.table, r.columns)) B'.toOperationNode.references =
        Option.map (fun r => (r.table, r.columns)) B.toOperationNode.references) ∧
    (∀ (B : ColumnDefinitionBuilder) a B', B.onUpdate a = Except.ok B' →
      Option.map (fun r => (r.table, r.columns)) B'.toOperationNode.references =
        Option.map (fun r => (r.table, r.columns)) B.toOperationNode.references) ∧
    (∀ m (B : ColumnDefinitionBuilder) B',
      (applyMethodState m B).1 = Except.ok B' →
      singletonRefs B.toOperationNode = true →
      singletonRefs B'.toOperationNode = true) := by
  refine ⟨?_, ?_, ?_, ?_⟩
  · intro B ref B' h
    unfold ColumnDefinitionBuilder.references at h
    split at h
    · exact Except.noConfusion h
    · split at h
      · exact Except.noConfusion h
      · injection h with h
        subst h
        exact ⟨_, rfl⟩
  · intro B a B' h
    unfold ColumnDefinitionBuilder.onDelete at h
    split at h
    · exact Except.noConfusion h
    next r href =>
      injection h with h
      subst h
      have href' : B.toOperationNode.references = some r := href
      rw [href']
      rfl
  · intro B a B' h
    unfold ColumnDefinitionBuilder.onUpdate at h
    split at h
    · exact Except.noConfusion h
    next r href =>
      injection h with h
      subst h
      have href' : B.toOperationNode.references = some r := href
      rw [href']
      rfl
  · intro m B B' h hinv
    cases m with
    | references ref =>
      simp only [applyMethodState] at h
      unfold ColumnDefinitionBuilder.references at h
      split at h
      · exact Except.noConfusion h
      · split at h
        · exact Except.noConfusion h
        · injection h with h
          subst h
          rfl
    | onDelete a =>
      simp only [applyMethodState] at h
      unfold ColumnDefinitionBuilder.onDelete at h
      split at h
      · exact Except.noConfusion h
      next r href =>
        injection h with h
        subst h
        have href' : B.toOperationNode.references = some r := href
        have h2 : singletonRefs B.toOperationNode = (r.columns.length == 1) := by
          unfold singletonRefs
          rw [href']
        rw [h2] at hinv
        exact hinv
    | onUpdate a =>
      simp only [applyMethodState] at h
      unfold ColumnDefinitionBuilder.onUpdate at h
      split at h
      · exact Except.noConfusion h
      next r href =>
        injection h with h
        subst h
        have href' : B.toOperationNode.references = some r := href
        have h2 : singletonRefs B.toOperationNode = (r.columns.length == 1) := by
          unfold singletonRefs
          rw [href']
        rw [h2] at hinv
        exact hinv
    | stored =>
      simp only [applyMethodState] at h
      unfold ColumnDefinitionBuilder.stored at h
      split at h
      · exact Except.noConfusion h
      · injection h with h
        subst h
        exact hinv
    | autoIncrement => injection h with h; subst h; exact hinv
    | primaryKey => injection h with h; subst h; exact hinv
    | unique => injection h with h; subst h; exact hinv
    | notNull => injection h with h; subst h; exact hinv
    | unsigned => injection h with h; subst h; exact hinv
    | defaultTo v => injection h with h; subst h; exact hinv
    | check e => injection h with h; subst h; exact hinv
    | generatedAlwaysAs e => injection h with h; subst h; exact hinv
    | generatedAlwaysAsIdentity => injection h with h; subst h; exact hinv
    | generatedByDefaultAsIdentity => injection h with h; subst h; exact hinv

/-- The references sub-node of `nodeWithRefs` after `onDelete cascade`. -/
def refsAfterDelete : ReferencesNode :=
  ReferencesNode.cloneWithOnDelete refsPlain OnModifyForeignAction.cascade

/-- The node of `nodeWithRefs` after `onDelete cascade`. -/
def nodeAfterDelete : ColumnDefinitionNode :=
  { nodeWithRefs with references := some refsAfterDelete }

/-- Claim C10 witness: the theorem applied to a concrete `references`
call, a concrete `onDelete` call, and a concrete invariant-preservation
step. -/
theorem references_always_single_column_witness :
    (∃ c, Option.map ReferencesNode.columns
      (ColumnDefinitionBuilder.mk nodeRefsReplaced).toOperationNode.references =
        some [c]) ∧
    (Option.map (fun r => (r.table, r.columns))
        (ColumnDefinitionBuilder.mk nodeAfterDelete).toOperationNode.references =
      Option.map (fun r => (r.table, r.columns))
        (ColumnDefinitionBuilder.mk nodeWithRefs).toOperationNode.references) ∧
    singletonRefs (ColumnDefinitionBuilder.mk nodeAfterDelete).toOperationNode = true :=
  ⟨references_always_single_column.1 ⟨nodeWithRefActions⟩ "x.y"
      ⟨nodeRefsReplaced⟩ (by decide),
   references_always_single_column.2.1 ⟨nodeWithRefs⟩
      OnModifyForeignAction.cascade ⟨nodeAfterDelete⟩ (by decide),
   references_always_single_column.2.2.2
      (CdbMethod.onDelete OnModifyForeignAction.cascade) ⟨nodeWithRefs⟩
      ⟨nodeAfterDelete⟩ (by decide) (by decide)⟩

/-- A boolean predicate tree (spec §3): AND/OR combinators over abstract
atomic conditions (comparisons, existence checks), indexed by number. -/
inductive BoolExpr where
| atom (n : Nat)
| and (l r : BoolExpr)
| or (l r : BoolExpr)
deriving DecidableEq, Repr

/-- Evaluation of a predicate tree under a valuation of its atoms. -/
def BoolExpr.eval (v : Nat → Bool) : BoolExpr → Bool
| BoolExpr.atom n => v n
| BoolExpr.and l r => BoolExpr.eval v l && BoolExpr.eval v r
| BoolExpr.or l r => BoolExpr.eval v l || BoolExpr.eval v r

/-- Modelled from the spec: §4.4 — the accumulation step of the
deprecated `orHaving` methods (their implementation is not under the
provided sources; `having-interface.ts` only declares them): the first
call installs its condition, each later call combines the new condition
with the accumulated ones using OR at the top level. -/
def orHavingAcc (s : Option BoolExpr) (c : BoolExpr) : Option BoolExpr :=
  match s with
  | none => some c
  | some h => some (BoolExpr.or h c)

/-- Modelled from the spec: §4.4 — the having-relevant state of a
having-capable builder: the accumulated having predicate plus the other
clause types, tracked abstractly. -/
structure HavingQuery where
  havingTree : Option BoolExpr
  otherClauses : List Nat
deriving DecidableEq, Repr

/-- Modelled from the spec: §4.4 — one deprecated `orHaving` call. -/
def HavingQuery.orHaving (q : HavingQuery) (c : BoolExpr) : HavingQuery :=
  ⟨orHavingAcc q.havingTree c, q.otherClauses⟩

/-- Modelled from the spec: §4.4 — a call of any other clause type; it
does not touch the having accumulator. -/
def HavingQuery.otherClause (q : HavingQuery) (x : Nat) : HavingQuery :=
  ⟨q.havingTree, q.otherClauses ++ [x]⟩

/-- One call on a having-capable builder. -/
inductive QueryOp where
| orHaving (c : BoolExpr)
| other (x : Nat)
deriving DecidableEq, Repr

/-- Applies a sequence of builder calls. -/
def applyQueryOps (q : HavingQuery) : List QueryOp → HavingQuery
| [] => q
| QueryOp.orHaving c :: ops => applyQueryOps (q.orHaving c) ops
| QueryOp.other x :: ops => applyQueryOps (q.otherClause x) ops

/-- The conditions of the `orHaving` calls of a call sequence, in call
order. -/
def havingConds : List QueryOp → List BoolExpr
| [] => []
| QueryOp.orHaving c :: ops => c :: havingConds ops
| QueryOp.other _ :: ops => havingConds ops

/-- A having-capable builder with nothing accumulated yet. -/
def emptyQuery : HavingQuery :=
  ⟨none, []⟩

/-- The final having accumulator is the fold of `orHavingAcc` over the
`orHaving` conditions of the call sequence, whatever other calls are
interleaved. -/
theorem applyQueryOps_havingTree (ops : List QueryOp) (q : HavingQuery) :
    (applyQueryOps q ops).havingTree =
      (havingConds ops).foldl orHavingAcc q.havingTree := by
  induction ops generalizing q with
  | nil => rfl
  | cons op ops ih =>
    cases op with
    | orHaving c =>
      simpa [applyQueryOps, havingConds, HavingQuery.orHaving] using ih _
    | other x =>
      simpa [applyQueryOps, havingConds, HavingQuery.otherClause] using ih _

/-- Claim C9: three `orHaving` calls with conditions c1, c2, c3 — in that
order, interleaved arbitrarily with calls of other clause types — yield a
having tree equivalent to `c1 OR c2 OR c3`: each call appends its
condition with OR at the top level rather than replacing the accumulated
ones. -/
theorem orHaving_accumulates_disjunction (ops : List QueryOp)
    (c1 c2 c3 : BoolExpr) (h : havingConds ops = [c1, c2, c3]) :
    ∃ t, (applyQueryOps emptyQuery ops).havingTree = some t ∧
      ∀ v, t.eval v = (c1.eval v || c2.eval v || c3.eval v) := by
  refine ⟨BoolExpr.or (BoolExpr.or c1 c2) c3, ?_, ?_⟩
  · rw [applyQueryOps_havingTree, h]
    rfl
  · intro v
    simp [BoolExpr.eval, Bool.or_assoc]

/-- A call sequence with three `orHaving` calls interleaved with calls of
other clause types. -/
def sampleOps : List QueryOp :=
  [QueryOp.orHaving (BoolExpr.atom 0), QueryOp.other 5,
   QueryOp.orHaving (BoolExpr.atom 1), QueryOp.other 7,
   QueryOp.orHaving (BoolExpr.atom 2)]

/-- Claim C9 witness: the theorem applied to a concrete interleaved call
sequence. -/
theorem orHaving_accumulates_disjunction_witness :
    ∃ t, (applyQueryOps emptyQuery sampleOps).havingTree = some t ∧
      ∀ v, t.eval v = ((BoolExpr.atom 0).eval v || (BoolExpr.atom 1).eval v ||
        (BoolExpr.atom 2).eval v) :=
  orHaving_accumulates_disjunction sampleOps (BoolExpr.atom 0)
    (BoolExpr.atom 1) (BoolExpr.atom 2) rfl

end Kysely
